import Mathlib

/-
Verification of the cross-account classification engine of
security_monkey (resource_policy_auditor.py and sns.py).

The knowledge base OBJECT_STORE (a Python `defaultdict(dict)` mapping a
table name to a dict from key strings to sets of account identifiers) is
embedded as an association list of association lists.  Python dicts are
modelled as association lists with first-match lookup; Python sets of
strings as `Finset String`.  External collaborators (the policyuniverse
ARN parser and the `ipaddr` network parser) are modelled as parameters
bundled in an `Env` record, since their code is not part of this
repository.
-/

namespace SecMonkey

/-- Table models one inner dict of OBJECT_STORE: key string to set of account ids. -/
abbrev Table := List (String × List String)

/-- Store models OBJECT_STORE itself: table name to table. -/
abbrev Store := List (String × Table)

/-- First-match lookup in a table, the embedding of Python dict indexing. -/
def Table.find : Table → String → Option (List String)
  | [], _ => none
  | (k, vs) :: rest, key => if k = key then some vs else Table.find rest key

/-- Update an existing key in place or append a fresh binding, the embedding of dict item assignment. -/
def tablePut : Table → String → List String → Table
  | [], k, vs => [(k, vs)]
  | (k', vs') :: rest, k, vs => if k' = k then (k', vs) :: rest else (k', vs') :: tablePut rest k vs

/-- First-match lookup of a table in the store. -/
def Store.find : Store → String → Option Table
  | [], _ => none
  | (n, t) :: rest, key => if n = key then some t else Store.find rest key

/-- Update an existing table in place or append a fresh one. -/
def storePut : Store → String → Table → Store
  | [], n, t => [(n, t)]
  | (m, u) :: rest, n, t => if m = n then (m, t) :: rest else (m, u) :: storePut rest n t

/-- Embeds `defaultdict.__getitem__`: return the table and the (possibly
extended) store; an absent table name is created bound to an empty dict. -/
def dget (s : Store) (n : String) : Table × Store :=
  match Store.find s n with
  | some t => (t, s)
  | none => ([], s ++ [(n, [])])

/-- Lookup of one key's account set through both levels of the store,
with no defaultdict side effect. -/
def assoc (s : Store) (t k : String) : Option (List String) :=
  match Store.find s t with
  | some tbl => Table.find tbl k
  | none => none

/-- Helper for `add`: insert `v` into the set bound to key `k`, creating the binding if absent. -/
def tableInsert : Table → String → String → Table
  | [], k, v => [(k, [v])]
  | (k', vs) :: rest, k, v =>
    if k' = k then (k', vs.insert v) :: rest else (k', vs) :: tableInsert rest k v

/-- Embedding of module-level `add(to, key, value)` (the Python parameter
`to` is a reserved token in Lean, so it is called `tbl` here): no-op on a
falsy key (`None` or the empty string), otherwise add `value` to the set
under `key`. -/
def add (tbl : Table) (key : Option String) (value : String) : Table :=
  match key with
  | none => tbl
  | some k => if k = "" then tbl else tableInsert tbl k value

/-- Embedding of `add(cls.OBJECT_STORE[n], key, v)`: the defaultdict access
materialises table `n`, then `add` mutates it in place. -/
def storeAdd (s : Store) (n : String) (key : Option String) (v : String) : Store :=
  let p := dget s n
  storePut p.2 n (add p.1 key v)

/-- An s3 Item row: its `name` column and `item.account.identifier`. -/
structure S3ItemM where
  name : Option String
  accountIdentifier : String

/-- A vpc Item row: `latest_config.get('id')`, `latest_config.get('cidr_block')`, owning account. -/
structure VpcItemM where
  vid : Option String
  cidr_block : Option String
  accountIdentifier : String

/-- A vpc-endpoint Item row: `latest_config.get('id')` and owning account. -/
structure VpceItemM where
  vid : Option String
  accountIdentifier : String

/-- One element of a NAT gateway's `nat_gateway_addresses` list. -/
structure NatAddressM where
  public_ip : Option String
  private_ip : Option String

/-- A natgateway Item row: its address list and owning account. -/
structure NatGatewayM where
  addresses : List NatAddressM
  accountIdentifier : String

/-- An IAM user or role Item row: `latest_config.get('UserId')` /
`latest_config.get('RoleId')` and owning account. -/
structure UserItemM where
  uid : Option String
  accountIdentifier : String

/-- The Resource Repository collaborator: results of the database queries
issued by the loader classmethods. -/
structure RepoM where
  s3Items : List S3ItemM
  vpcItems : List VpcItemM
  vpceItems : List VpceItemM
  natGateways : List NatGatewayM
  whitelistCidrs : List String
  iamUsers : List UserItemM
  iamRoles : List UserItemM
  friendlyAccounts : List String
  thirdPartyAccounts : List String

/-- Embedding of `_load_s3_buckets`. -/
def load_s3_buckets (repo : RepoM) (s : Store) : Store :=
  repo.s3Items.foldl (fun acc it => storeAdd acc "s3" it.name it.accountIdentifier) s

/-- Embedding of `_load_vpcs`: the VPC id goes under table `vpc`, the CIDR block under `cidr`. -/
def load_vpcs (repo : RepoM) (s : Store) : Store :=
  repo.vpcItems.foldl
    (fun acc it =>
      storeAdd (storeAdd acc "vpc" it.vid it.accountIdentifier) "cidr" it.cidr_block
        it.accountIdentifier)
    s

/-- Embedding of `_load_vpces`. -/
def load_vpces (repo : RepoM) (s : Store) : Store :=
  repo.vpceItems.foldl (fun acc it => storeAdd acc "vpce" it.vid it.accountIdentifier) s

/-- Embedding of `_load_natgateways`: public then private IP of each address under `cidr`. -/
def load_natgateways (repo : RepoM) (s : Store) : Store :=
  repo.natGateways.foldl
    (fun acc gw =>
      gw.addresses.foldl
        (fun acc2 a =>
          storeAdd (storeAdd acc2 "cidr" a.public_ip gw.accountIdentifier) "cidr" a.private_ip
            gw.accountIdentifier)
        acc)
    s

/-- Embedding of `_load_network_whitelist`: every whitelist CIDR is owned by
the sentinel account `000000000000`. -/
def load_network_whitelist (repo : RepoM) (s : Store) : Store :=
  repo.whitelistCidrs.foldl (fun acc c => storeAdd acc "cidr" (some c) "000000000000") s

/-- Embedding of `_load_userids`: IAM users first, then IAM roles, both under `userid`. -/
def load_userids (repo : RepoM) (s : Store) : Store :=
  let s1 := repo.iamUsers.foldl (fun acc it => storeAdd acc "userid" it.uid it.accountIdentifier) s
  repo.iamRoles.foldl (fun acc it => storeAdd acc "userid" it.uid it.accountIdentifier) s1

/-- Embedding of `_load_accounts`: `OBJECT_STORE['ACCOUNTS']['FRIENDLY']` is
assigned the empty set and then filled by `add`, and likewise `THIRDPARTY`. -/
def load_accounts (repo : RepoM) (s : Store) : Store :=
  let p := dget s "ACCOUNTS"
  let s1 := storePut p.2 "ACCOUNTS" (tablePut p.1 "FRIENDLY" [])
  let s2 := repo.friendlyAccounts.foldl
    (fun acc a => storeAdd acc "ACCOUNTS" (some "FRIENDLY") a) s1
  let q := dget s2 "ACCOUNTS"
  let s3 := storePut q.2 "ACCOUNTS" (tablePut q.1 "THIRDPARTY" [])
  repo.thirdPartyAccounts.foldl (fun acc a => storeAdd acc "ACCOUNTS" (some "THIRDPARTY") a) s3

/-- Embedding of `prep_for_audit`: the loaders run only when the OBJECT_STORE
defaultdict is falsy, that is when it holds no table at all. -/
def prep_for_audit (repo : RepoM) (s : Store) : Store :=
  if s = [] then
    load_network_whitelist repo
      (load_natgateways repo
        (load_vpces repo
          (load_vpcs repo
            (load_accounts repo
              (load_userids repo
                (load_s3_buckets repo s))))))
  else s

/-- Result of the policyuniverse `ARN(input)` collaborator: one field per
attribute the auditor reads. -/
structure ARNRec where
  tech : Option String
  account_number : Option String
  arnName : Option String
  error : Bool
  root : Bool
  service : Bool

/-- A parsed `ipaddr.IPNetwork`: IP version, raw address and prefix length. -/
structure IPNet where
  version : Nat
  ip : Nat
  prefixlen : Nat

/-- Bit width of the address family. -/
def IPNet.width (n : IPNet) : Nat := if n.version = 4 then 32 else 128

/-- Number of host addresses covered by the network. -/
def IPNet.span (n : IPNet) : Nat := 2 ^ (n.width - n.prefixlen)

/-- The network (lowest) address. -/
def IPNet.network (n : IPNet) : Nat := n.ip / n.span * n.span

/-- The broadcast (highest) address. -/
def IPNet.broadcast (n : IPNet) : Nat := n.network + n.span - 1

/-- Embedding of `ipaddr.IPNetwork.__contains__` applied to a network
argument: `q in st` holds when both networks share a version and `st`'s
range covers `q`'s range. -/
def netContains (st q : IPNet) : Bool :=
  st.version = q.version && st.network ≤ q.network && q.broadcast ≤ st.broadcast

/-- External collaborators: the ARN parser (policyuniverse) and the network
parser (ipaddr); `parseNet` returns `none` where `ipaddr.IPNetwork` raises. -/
structure Env where
  arnParse : String → ARNRec
  parseNet : String → Option IPNet

/-- The home account of the item under review (`same` in the source). -/
structure SameAccount where
  identifier : String

/-- A principal reference produced by the Policy Parser collaborator. -/
structure Who where
  category : String
  value : String
deriving DecidableEq

/-- A recorded finding: the arguments the auditor passes to `add_issue`. -/
structure Finding where
  severity : Nat
  tag : String
  notes : Option String
deriving DecidableEq

/-- Python membership of a possibly-`None` value in a set of strings;
`None` is a member of no string set. -/
def optMem (o : Option String) (vs : List String) : Bool :=
  match o with
  | none => false
  | some a => a ∈ vs

/-- Character-list version of string-prefix testing, used for Python substring membership. -/
def charsPre : List Char → List Char → Bool
  | [], _ => true
  | _ :: _, [] => false
  | a :: as, b :: bs => a = b && charsPre as bs

/-- Does `needle` occur as a contiguous run inside `hay`? -/
def charsSub (needle : List Char) : List Char → Bool
  | [] => charsPre needle []
  | b :: bs => charsPre needle (b :: bs) || charsSub needle bs

/-- Python `needle in hay` on two strings: substring containment. -/
def pyStrIn (needle hay : String) : Bool :=
  charsSub needle.toList hay.toList

/-- Value returned by `inspect_who`: either a Python set of tier strings or a
bare Python string (the `'ERROR'` branch returns a string, not a set). -/
inductive WhoResult where
  | tiers (ts : Finset String)
  | str (v : String)
deriving DecidableEq

/-- Python `t in result` as used by the checks: set membership on a set
result, substring containment on a string result. -/
def wrMem (t : String) : WhoResult → Bool
  | .tiers ts => t ∈ ts
  | .str v => pyStrIn t v

/-- Embedding of `inspect_who_account`.  The store is threaded because the
defaultdict access may create the `ACCOUNTS` table; a missing `FRIENDLY` or
`THIRDPARTY` key inside it raises `KeyError`. -/
def inspect_who_account (s : Store) (account_number : Option String) (same : SameAccount) :
    Except String String × Store :=
  if account_number = some "000000000000" then (.ok "SAME", s)
  else if account_number = some same.identifier then (.ok "SAME", s)
  else
    let p := dget s "ACCOUNTS"
    match Table.find p.1 "FRIENDLY" with
    | none => (.error "KeyError", p.2)
    | some fr =>
      if optMem account_number fr then (.ok "FRIENDLY", p.2)
      else
        let q := dget p.2 "ACCOUNTS"
        match Table.find q.1 "THIRDPARTY" with
        | none => (.error "KeyError", q.2)
        | some tp =>
          if optMem account_number tp then (.ok "THIRDPARTY", q.2)
          else (.ok "UNKNOWN", q.2)

/-- The `values.add(self.inspect_who_account(account, same))` accumulation
loop shared by `inspect_who_generic` and `inspect_who_cidr`. -/
def accumTiers (same : SameAccount) : Store → List String → Finset String →
    Except String (Finset String) × Store
  | s, [], acc => (.ok acc, s)
  | s, a :: rest, acc =>
    match inspect_who_account s (some a) same with
    | (.ok t, s1) => accumTiers same s1 rest (insert t acc)
    | (.error e, s1) => (.error e, s1)

/-- Embedding of `inspect_who_generic`: membership of the (possibly `None`)
key in the table chosen by `key`, with the defaultdict materialising that
table; an absent key resolves to `set(['UNKNOWN'])`. -/
def inspect_who_generic (s : Store) (key : String) (itemv : Option String)
    (same : SameAccount) : Except String (Finset String) × Store :=
  let p := dget s key
  match itemv with
  | none => (.ok {"UNKNOWN"}, p.2)
  | some iv =>
    match Table.find p.1 iv with
    | some accounts => accumTiers same p.2 accounts ∅
    | none => (.ok {"UNKNOWN"}, p.2)

/-- Embedding of `inspect_who_s3`. -/
def inspect_who_s3 (s : Store) (bucket_name : Option String) (same : SameAccount) :
    Except String (Finset String) × Store :=
  inspect_who_generic s "s3" bucket_name same

/-- Embedding of `inspect_who_userid`: the key is the text before the first colon. -/
def inspect_who_userid (s : Store) (userid : String) (same : SameAccount) :
    Except String (Finset String) × Store :=
  inspect_who_generic s "userid" (some ((userid.splitOn ":").headD "")) same

/-- Embedding of `inspect_who_vpc`. -/
def inspect_who_vpc (s : Store) (vpcid : String) (same : SameAccount) :
    Except String (Finset String) × Store :=
  inspect_who_generic s "vpc" (some vpcid) same

/-- Embedding of `inspect_who_vpce`. -/
def inspect_who_vpce (s : Store) (vpcid : String) (same : SameAccount) :
    Except String (Finset String) × Store :=
  inspect_who_generic s "vpce" (some vpcid) same

/-- The iteration over the entries of `OBJECT_STORE['cidr']` performed by
`inspect_who_cidr`; each round parses the queried and the stored CIDR (a
parse failure raises `ValueError`) and accumulates the containment hits. -/
def cidrLoop (env : Env) (same : SameAccount) (cidr : String) :
    Store → List (String × List String) → Finset String →
    Except String (Finset String) × Store
  | s, [], acc => (.ok acc, s)
  | s, (str_cidr, accounts) :: rest, acc =>
    match env.parseNet cidr with
    | none => (.error "ValueError", s)
    | some q =>
      match env.parseNet str_cidr with
      | none => (.error "ValueError", s)
      | some st =>
        if netContains st q then
          match accumTiers same s accounts acc with
          | (.ok acc2, s1) => cidrLoop env same cidr s1 rest acc2
          | (.error e, s1) => (.error e, s1)
        else cidrLoop env same cidr s rest acc

/-- Embedding of `inspect_who_cidr`: union the resolved tiers of the owners
of every stored network containing the query; an empty union resolves to
`set(['UNKNOWN'])`. -/
def inspect_who_cidr (env : Env) (s : Store) (cidr : String) (same : SameAccount) :
    Except String (Finset String) × Store :=
  let p := dget s "cidr"
  match cidrLoop env same cidr p.2 p.1 ∅ with
  | (.ok values, s1) => if values = ∅ then (.ok {"UNKNOWN"}, s1) else (.ok values, s1)
  | (.error e, s1) => (.error e, s1)

/-- The finding recorded by `record_arn_parse_issue`. -/
def arnParseFinding (arn : String) : Finding :=
  ⟨3, "Auditor could not parse ARN", some arn⟩

/-- Embedding of `inspect_who_arn`: the bare wildcard resolves to UNKNOWN,
a failed ARN parse records one severity-3 finding and resolution continues,
s3 ARNs resolve by bucket name and every other ARN by account number. -/
def inspect_who_arn (env : Env) (s : Store) (arn_input : String) (same : SameAccount) :
    Except String (Finset String) × Store × List Finding :=
  if arn_input = "*" then (.ok {"UNKNOWN"}, s, [])
  else
    let arn := env.arnParse arn_input
    let fs := if arn.error then [arnParseFinding arn_input] else []
    if arn.tech = some "s3" then
      let r := inspect_who_s3 s arn.arnName same
      (r.1, r.2, fs)
    else
      let r := inspect_who_account s arn.account_number same
      match r.1 with
      | .ok t => (.ok {t}, r.2, fs)
      | .error e => (.error e, r.2, fs)

/-- Embedding of `inspect_who`: dispatch on the reference category; an
unrecognized category returns the bare string `'ERROR'`. -/
def inspect_who (env : Env) (s : Store) (who : Who) (same : SameAccount) :
    Except String WhoResult × Store × List Finding :=
  if who.category = "arn" ∨ who.category = "principal" then
    let r := inspect_who_arn env s who.value same
    (r.1.map .tiers, r.2.1, r.2.2)
  else if who.category = "account" then
    let r := inspect_who_account s (some who.value) same
    (r.1.map (fun t => .tiers {t}), r.2, [])
  else if who.category = "userid" then
    let r := inspect_who_userid s who.value same
    (r.1.map .tiers, r.2, [])
  else if who.category = "cidr" then
    let r := inspect_who_cidr env s who.value same
    (r.1.map .tiers, r.2, [])
  else if who.category = "vpc" then
    let r := inspect_who_vpc s who.value same
    (r.1.map .tiers, r.2, [])
  else if who.category = "vpce" then
    let r := inspect_who_vpce s who.value same
    (r.1.map .tiers, r.2, [])
  else (.ok (.str "ERROR"), s, [])

/-- A policy statement as exposed by the policyuniverse collaborator:
its effect, its action set and its principal references. -/
structure StatementM where
  effect : String
  actions : List String
  whos : List Who

/-- A parsed policy as exposed by the policyuniverse collaborator. -/
structure PolicyM where
  internetAccessible : Bool
  whosAllowed : List Who
  statements : List StatementM

/-- The finding recorded by `record_friendly_cross_account_access_issue`. -/
def friendlyFinding (who : Who) : Finding :=
  ⟨0, "Friendly Cross Account Access",
    some ("Access provided to " ++ who.category ++ ":" ++ who.value ++ ".")⟩

/-- The finding recorded by `record_thirdparty_cross_account_access_issue`. -/
def thirdpartyFinding (who : Who) : Finding :=
  ⟨0, "Friendly Third Party Cross Account Access",
    some ("Access provided to " ++ who.category ++ ":" ++ who.value ++ ".")⟩

/-- The finding recorded by `record_unknown_cross_account_access_issue`. -/
def unknownFinding (who : Who) : Finding :=
  ⟨10, "Unknown Cross Account Access",
    some ("Access provided to " ++ who.category ++ ":" ++ who.value ++ ".")⟩

/-- Modelled from the spec: `_check_cross_account_root` lives in the base
`Auditor` class, which is not part of this repository's sources; the spec
says the root check emits "a dedicated root-access finding listing the
granted actions", so it is modelled as one finding whose notes list the
statement's actions. -/
def rootAccessFinding (actions : List String) : Finding :=
  ⟨10, "Root Cross Account Access", some (String.intercalate "," actions)⟩

/-- The body of `check_friendly_cross_account`'s loop over `policy.whos_allowed()`. -/
def check_friendly_whos (env : Env) (same : SameAccount) :
    Store → List Who → Except String Unit × Store × List Finding
  | s, [] => (.ok (), s, [])
  | s, who :: rest =>
    match inspect_who env s who same with
    | (.ok wr, s1, fs) =>
      let fs2 := if wrMem "FRIENDLY" wr then fs ++ [friendlyFinding who] else fs
      let r := check_friendly_whos env same s1 rest
      (r.1, r.2.1, fs2 ++ r.2.2)
    | (.error e, s1, fs) => (.error e, s1, fs)

/-- The body of `check_thirdparty_cross_account`'s loop. -/
def check_thirdparty_whos (env : Env) (same : SameAccount) :
    Store → List Who → Except String Unit × Store × List Finding
  | s, [] => (.ok (), s, [])
  | s, who :: rest =>
    match inspect_who env s who same with
    | (.ok wr, s1, fs) =>
      let fs2 := if wrMem "THIRDPARTY" wr then fs ++ [thirdpartyFinding who] else fs
      let r := check_thirdparty_whos env same s1 rest
      (r.1, r.2.1, fs2 ++ r.2.2)
    | (.error e, s1, fs) => (.error e, s1, fs)

/-- The body of `check_unknown_cross_account`'s loop over one policy's
references: skip the bare wildcard principal, skip `principal` references
whose ARN has the service field set, then flag UNKNOWN resolutions. -/
def check_unknown_whos (env : Env) (same : SameAccount) :
    Store → List Who → Except String Unit × Store × List Finding
  | s, [] => (.ok (), s, [])
  | s, who :: rest =>
    if who.value = "*" ∧ who.category = "principal" then
      check_unknown_whos env same s rest
    else if who.category = "principal" ∧ (env.arnParse who.value).service = true then
      check_unknown_whos env same s rest
    else
      match inspect_who env s who same with
      | (.ok wr, s1, fs) =>
        let fs2 := if wrMem "UNKNOWN" wr then fs ++ [unknownFinding who] else fs
        let r := check_unknown_whos env same s1 rest
        (r.1, r.2.1, fs2 ++ r.2.2)
      | (.error e, s1, fs) => (.error e, s1, fs)

/-- One policy's round of `check_unknown_cross_account`: a policy already
flagged internet-accessible is skipped entirely. -/
def check_unknown_policy (env : Env) (same : SameAccount) (s : Store) (pol : PolicyM) :
    Except String Unit × Store × List Finding :=
  if pol.internetAccessible then (.ok (), s, [])
  else check_unknown_whos env same s pol.whosAllowed

/-- Embedding of `check_unknown_cross_account` over the item's policy list. -/
def check_unknown_cross_account (env : Env) (same : SameAccount) :
    Store → List PolicyM → Except String Unit × Store × List Finding
  | s, [] => (.ok (), s, [])
  | s, pol :: rest =>
    match check_unknown_policy env same s pol with
    | (.ok _, s1, fs) =>
      let r := check_unknown_cross_account env same s1 rest
      (r.1, r.2.1, fs ++ r.2.2)
    | (.error e, s1, fs) => (.error e, s1, fs)

/-- Python `set.intersection` followed by truthiness, as used by
`check_root_cross_account`; calling it on the bare string result would
raise `AttributeError`. -/
def wrIntersects (wr : WhoResult) (ts : Finset String) : Except String Bool :=
  match wr with
  | .tiers s => .ok (if s ∩ ts = ∅ then false else true)
  | .str _ => .error "AttributeError"

/-- The tier set `set(['FRIENDLY', 'THIRDPARTY', 'UNKNOWN'])` of the root check. -/
def rootTiers : Finset String := {"FRIENDLY", "THIRDPARTY", "UNKNOWN"}

/-- The body of `check_root_cross_account`'s loop over one statement's
references; `arn.root and ...` short-circuits, so resolution only runs for
root ARNs. -/
def check_root_whos (env : Env) (same : SameAccount) (actions : List String) :
    Store → List Who → Except String Unit × Store × List Finding
  | s, [] => (.ok (), s, [])
  | s, who :: rest =>
    if who.category = "arn" ∨ who.category = "principal" then
      if who.value = "*" then check_root_whos env same actions s rest
      else if (env.arnParse who.value).root = true then
        match inspect_who env s who same with
        | (.ok wr, s1, fs) =>
          match wrIntersects wr rootTiers with
          | .ok b =>
            let fs2 := if b then fs ++ [rootAccessFinding actions] else fs
            let r := check_root_whos env same actions s1 rest
            (r.1, r.2.1, fs2 ++ r.2.2)
          | .error e => (.error e, s1, fs)
        | (.error e, s1, fs) => (.error e, s1, fs)
      else check_root_whos env same actions s rest
    else check_root_whos env same actions s rest

/-- One statement's round of `check_root_cross_account`: statements whose
effect is not `Allow` are skipped. -/
def check_root_statement (env : Env) (same : SameAccount) (s : Store) (st : StatementM) :
    Except String Unit × Store × List Finding :=
  if st.effect = "Allow" then check_root_whos env same st.actions s st.whos
  else (.ok (), s, [])

/-- A JSON-like configuration value, for the SNS item's `config` mapping. -/
inductive JVal where
  | null
  | jstr (s : String)
  | jnum (n : Int)
  | jbool (b : Bool)
  | obj (fields : List (String × JVal))
  | arr (elems : List JVal)

/-- Python `config.get(k, d)` over the configuration mapping. -/
def configGet (cfg : List (String × JVal)) (k : String) (d : JVal) : JVal :=
  match cfg.find? (fun p => p.1 == k) with
  | some p => p.2
  | none => d

/-- Python `v == {}`: true exactly for an empty mapping. -/
def pyEqEmptyDict : JVal → Bool
  | .obj [] => true
  | _ => false

/-- An SNS item: only its configuration mapping matters to the checks modelled here. -/
structure SnsItem where
  config : List (String × JVal)

/-- Embedding of `SNSAuditor.check_snstopicpolicy_empty`. -/
def check_snstopicpolicy_empty (snsitem : SnsItem) : List Finding :=
  if pyEqEmptyDict (configGet snsitem.config "policy" (.obj [])) = true then
    [⟨1, "SNS Topic Policy is empty", none⟩]
  else []

/-- A store is well formed when the account registry carries both partitions
and every table the resolver consults is present (the state after a
completed build). -/
def WF (s : Store) : Prop :=
  (∃ fr, assoc s "ACCOUNTS" "FRIENDLY" = some fr) ∧
  (∃ tp, assoc s "ACCOUNTS" "THIRDPARTY" = some tp) ∧
  (∃ t, Store.find s "s3" = some t) ∧
  (∃ t, Store.find s "vpc" = some t) ∧
  (∃ t, Store.find s "vpce" = some t) ∧
  (∃ t, Store.find s "cidr" = some t) ∧
  (∃ t, Store.find s "userid" = some t)

/-- Pure description of `inspect_who_account`'s answer on a store whose
registry keys are present; used to state the resolver theorems. -/
def accountTier (s : Store) (a : Option String) (same : SameAccount) : String :=
  if a = some "000000000000" then "SAME"
  else if a = some same.identifier then "SAME"
  else if optMem a ((assoc s "ACCOUNTS" "FRIENDLY").getD []) then "FRIENDLY"
  else if optMem a ((assoc s "ACCOUNTS" "THIRDPARTY").getD []) then "THIRDPARTY"
  else "UNKNOWN"

theorem dget_found {s : Store} {n : String} {t : Table} (h : Store.find s n = some t) :
    dget s n = (t, s) := by
  simp [dget, h]

theorem find_append_of_none {s : Store} {n : String} (h : Store.find s n = none)
    (m : String) (tb : Table) :
    Store.find (s ++ [(m, tb)]) n = if m = n then some tb else none := by
  induction s with
  | nil => simp [Store.find]
  | cons p rest ih =>
    simp only [Store.find] at h ⊢
    by_cases hp : p.1 = n
    · simp [hp] at h
    · simpa [hp] using ih (by simpa [hp] using h)

theorem find_append_of_some {s : Store} {n : String} {tbl : Table}
    (h : Store.find s n = some tbl) (l : Store) :
    Store.find (s ++ l) n = some tbl := by
  induction s with
  | nil => simp [Store.find] at h
  | cons p rest ih =>
    simp only [Store.find] at h ⊢
    by_cases hp : p.1 = n
    · simpa [hp] using h
    · simpa [hp] using ih (by simpa [hp] using h)

theorem assoc_append_empty (s : Store) (n : String) (t k : String) :
    assoc (s ++ [(n, [])]) t k = assoc s t k := by
  unfold assoc
  rcases h : Store.find s t with _ | tbl
  · rw [find_append_of_none h]
    by_cases hn : n = t <;> simp [hn, Table.find]
  · simp [find_append_of_some h]

theorem assoc_dget (s : Store) (n : String) (t k : String) :
    assoc (dget s n).2 t k = assoc s t k := by
  unfold dget
  rcases h : Store.find s n with _ | tbl
  · simpa using assoc_append_empty s n t k
  · simp

theorem dget_snd_of_found {s : Store} {n : String} {t : Table}
    (h : Store.find s n = some t) : (dget s n).2 = s := by
  simp [dget, h]

theorem inspect_who_account_eq {s : Store} {fr tp : List String}
    (hfr : assoc s "ACCOUNTS" "FRIENDLY" = some fr)
    (htp : assoc s "ACCOUNTS" "THIRDPARTY" = some tp)
    (a : Option String) (same : SameAccount) :
    inspect_who_account s a same = (.ok (accountTier s a same), s) := by
  rcases hacc : Store.find s "ACCOUNTS" with _ | tbl
  · simp [assoc, hacc] at hfr
  · have hT : dget s "ACCOUNTS" = (tbl, s) := dget_found hacc
    have hfr' : Table.find tbl "FRIENDLY" = some fr := by simpa [assoc, hacc] using hfr
    have htp' : Table.find tbl "THIRDPARTY" = some tp := by simpa [assoc, hacc] using htp
    unfold inspect_who_account accountTier
    simp only [hT, hfr', htp', hfr, htp, Option.getD_some]
    by_cases h0 : a = some "000000000000"
    · simp [h0]
    · by_cases hs : a = some same.identifier
      · simp [h0, hs]
      · by_cases hf : optMem a fr = true
        · simp [h0, hs, hf]
        · by_cases ht : optMem a tp = true <;>
            simp [h0, hs, hf, ht]

theorem accumTiers_eq {s : Store} {fr tp : List String}
    (hfr : assoc s "ACCOUNTS" "FRIENDLY" = some fr)
    (htp : assoc s "ACCOUNTS" "THIRDPARTY" = some tp)
    (same : SameAccount) (l : List String) (acc : Finset String) :
    accumTiers same s l acc =
      (.ok (l.foldl (fun ac a => insert (accountTier s (some a) same) ac) acc), s) := by
  induction l generalizing acc with
  | nil => simp [accumTiers]
  | cons a rest ih =>
    simp only [accumTiers, inspect_who_account_eq hfr htp, List.foldl]
    exact ih _

theorem foldl_insert_eq_union (f : String → String) (l : List String) (acc : Finset String) :
    l.foldl (fun ac a => insert (f a) ac) acc = acc ∪ (l.map f).toFinset := by
  induction l generalizing acc with
  | nil => simp
  | cons a rest ih =>
    simp only [List.foldl, List.map, List.toFinset_cons, ih]
    ext x
    simp [or_comm, or_assoc, or_left_comm]

theorem inspect_who_generic_wf {s : Store} {fr tp : List String} {tbl : Table}
    (hfr : assoc s "ACCOUNTS" "FRIENDLY" = some fr)
    (htp : assoc s "ACCOUNTS" "THIRDPARTY" = some tp)
    {key : String} (hk : Store.find s key = some tbl) (iv : Option String) (same : SameAccount) :
    ∃ r, inspect_who_generic s key iv same = (.ok r, s) := by
  unfold inspect_who_generic
  rw [dget_found hk]
  rcases iv with _ | i
  · exact ⟨_, rfl⟩
  · dsimp only
    rcases h : Table.find tbl i with _ | accounts
    · exact ⟨_, rfl⟩
    · dsimp only
      rw [accumTiers_eq hfr htp]
      exact ⟨_, rfl⟩

theorem inspect_who_arn_wf {s : Store} {fr tp : List String} {t3 : Table}
    (hfr : assoc s "ACCOUNTS" "FRIENDLY" = some fr)
    (htp : assoc s "ACCOUNTS" "THIRDPARTY" = some tp)
    (h3 : Store.find s "s3" = some t3)
    (env : Env) (arn_input : String) (same : SameAccount) :
    ∃ ts, inspect_who_arn env s arn_input same =
      (.ok ts, s,
        if arn_input = "*" then []
        else if (env.arnParse arn_input).error then [arnParseFinding arn_input] else []) := by
  unfold inspect_who_arn
  by_cases hw : arn_input = "*"
  · rw [if_pos hw, if_pos hw]
    exact ⟨_, rfl⟩
  · rw [if_neg hw, if_neg hw]
    dsimp only
    by_cases ht : (env.arnParse arn_input).tech = some "s3"
    · obtain ⟨r, hr⟩ :=
        inspect_who_generic_wf hfr htp h3 (env.arnParse arn_input).arnName same
      rw [if_pos ht]
      unfold inspect_who_s3
      rw [hr]
      exact ⟨_, rfl⟩
    · rw [if_neg ht, inspect_who_account_eq hfr htp]
      dsimp only
      exact ⟨_, rfl⟩

theorem cidrLoop_snd {s : Store} {fr tp : List String}
    (hfr : assoc s "ACCOUNTS" "FRIENDLY" = some fr)
    (htp : assoc s "ACCOUNTS" "THIRDPARTY" = some tp)
    (env : Env) (same : SameAccount) (cidr : String)
    (entries : List (String × List String)) (acc : Finset String) :
    ∃ res, cidrLoop env same cidr s entries acc = (res, s) := by
  induction entries generalizing acc with
  | nil => exact ⟨_, rfl⟩
  | cons e rest ih =>
    rcases e with ⟨str_cidr, accounts⟩
    unfold cidrLoop
    rcases hq : env.parseNet cidr with _ | q
    · exact ⟨_, rfl⟩
    · rcases hst : env.parseNet str_cidr with _ | st
      · exact ⟨_, rfl⟩
      · dsimp only
        by_cases hc : netContains st q = true
        · rw [if_pos hc, accumTiers_eq hfr htp]
          exact ih _
        · rw [if_neg hc]
          exact ih acc

theorem inspect_who_cidr_wf {s : Store} {fr tp : List String} {tC : Table}
    (hfr : assoc s "ACCOUNTS" "FRIENDLY" = some fr)
    (htp : assoc s "ACCOUNTS" "THIRDPARTY" = some tp)
    (hc : Store.find s "cidr" = some tC)
    (env : Env) (cidr : String) (same : SameAccount) :
    ∃ res, inspect_who_cidr env s cidr same = (res, s) := by
  unfold inspect_who_cidr
  rw [dget_found hc]
  dsimp only
  obtain ⟨res, hres⟩ := cidrLoop_snd hfr htp env same cidr tC ∅
  rw [hres]
  rcases res with e | v
  · exact ⟨_, rfl⟩
  · dsimp only
    by_cases hv : v = ∅
    · rw [if_pos hv]
      exact ⟨_, rfl⟩
    · rw [if_neg hv]
      exact ⟨_, rfl⟩

theorem inspect_who_wf (env : Env) {s : Store} (h : WF s) (who : Who) (same : SameAccount) :
    ∃ res fs, inspect_who env s who same = (res, s, fs) ∧
      (fs = [] ∨ fs = [arnParseFinding who.value]) ∧
      ((who.category = "arn" ∨ who.category = "principal") →
        ∃ ts, res = .ok (.tiers ts)) := by
  obtain ⟨⟨fr, hfr⟩, ⟨tp, htp⟩, ⟨t3, h3⟩, ⟨tV, hV⟩, ⟨tE, hE⟩, ⟨tC, hC⟩, ⟨tU, hU⟩⟩ := h
  unfold inspect_who
  by_cases ha : who.category = "arn" ∨ who.category = "principal"
  · obtain ⟨ts, hts⟩ := inspect_who_arn_wf hfr htp h3 env who.value same
    rw [if_pos ha]
    dsimp only
    rw [hts]
    refine ⟨_, _, rfl, ?_, fun _ => ⟨ts, rfl⟩⟩
    by_cases hw : who.value = "*"
    · rw [if_pos hw]
      exact .inl rfl
    · rw [if_neg hw]
      by_cases he : (env.arnParse who.value).error = true
      · rw [if_pos he]
        exact .inr rfl
      · rw [if_neg he]
        exact .inl rfl
  · rw [if_neg ha]
    by_cases hac : who.category = "account"
    · rw [if_pos hac]
      dsimp only
      rw [inspect_who_account_eq hfr htp]
      exact ⟨_, _, rfl, .inl rfl, fun hx => absurd hx ha⟩
    · rw [if_neg hac]
      by_cases hui : who.category = "userid"
      · obtain ⟨r, hr⟩ := inspect_who_generic_wf hfr htp hU
          (some ((who.value.splitOn ":").headD "")) same
        rw [if_pos hui]
        dsimp only
        unfold inspect_who_userid
        rw [hr]
        exact ⟨_, _, rfl, .inl rfl, fun hx => absurd hx ha⟩
      · rw [if_neg hui]
        by_cases hcd : who.category = "cidr"
        · obtain ⟨res, hres⟩ := inspect_who_cidr_wf hfr htp hC env who.value same
          rw [if_pos hcd]
          dsimp only
          rw [hres]
          exact ⟨_, _, rfl, .inl rfl, fun hx => absurd hx ha⟩
        · rw [if_neg hcd]
          by_cases hv : who.category = "vpc"
          · obtain ⟨r, hr⟩ := inspect_who_generic_wf hfr htp hV (some who.value) same
            rw [if_pos hv]
            dsimp only
            unfold inspect_who_vpc
            rw [hr]
            exact ⟨_, _, rfl, .inl rfl, fun hx => absurd hx ha⟩
          · rw [if_neg hv]
            by_cases hve : who.category = "vpce"
            · obtain ⟨r, hr⟩ := inspect_who_generic_wf hfr htp hE (some who.value) same
              rw [if_pos hve]
              dsimp only
              unfold inspect_who_vpce
              rw [hr]
              exact ⟨_, _, rfl, .inl rfl, fun hx => absurd hx ha⟩
            · rw [if_neg hve]
              exact ⟨_, _, rfl, .inl rfl, fun hx => absurd hx ha⟩

theorem assoc_inspect_who_account (s : Store) (a : Option String) (same : SameAccount)
    (t k : String) : assoc (inspect_who_account s a same).2 t k = assoc s t k := by
  unfold inspect_who_account
  by_cases h0 : a = some "000000000000"
  · rw [if_pos h0]
  · rw [if_neg h0]
    by_cases hs : a = some same.identifier
    · rw [if_pos hs]
    · rw [if_neg hs]
      dsimp only
      rcases hf : Table.find (dget s "ACCOUNTS").1 "FRIENDLY" with _ | fr
      · exact assoc_dget s "ACCOUNTS" t k
      · dsimp only
        by_cases hm : optMem a fr = true
        · rw [if_pos hm]
          exact assoc_dget s "ACCOUNTS" t k
        · rw [if_neg hm]
          rcases ht : Table.find (dget (dget s "ACCOUNTS").2 "ACCOUNTS").1 "THIRDPARTY" with _ | tp
          · exact (assoc_dget _ "ACCOUNTS" t k).trans (assoc_dget s "ACCOUNTS" t k)
          · dsimp only
            by_cases hm2 : optMem a tp = true
            · rw [if_pos hm2]
              exact (assoc_dget _ "ACCOUNTS" t k).trans (assoc_dget s "ACCOUNTS" t k)
            · rw [if_neg hm2]
              exact (assoc_dget _ "ACCOUNTS" t k).trans (assoc_dget s "ACCOUNTS" t k)

theorem assoc_accumTiers (same : SameAccount) (l : List String) :
    ∀ (s : Store) (acc : Finset String) (t k : String),
      assoc (accumTiers same s l acc).2 t k = assoc s t k := by
  induction l with
  | nil => intro s acc t k; rfl
  | cons a rest ih =>
    intro s acc t k
    unfold accumTiers
    rcases h : inspect_who_account s (some a) same with ⟨r, s1⟩
    have hpres : assoc s1 t k = assoc s t k := by
      have := assoc_inspect_who_account s (some a) same t k
      rwa [h] at this
    rcases r with e | tr
    · exact hpres
    · exact (ih s1 _ t k).trans hpres

theorem assoc_inspect_who_generic (s : Store) (key : String) (iv : Option String)
    (same : SameAccount) (t k : String) :
    assoc (inspect_who_generic s key iv same).2 t k = assoc s t k := by
  unfold inspect_who_generic
  rcases iv with _ | i
  · exact assoc_dget s key t k
  · dsimp only
    rcases h : Table.find (dget s key).1 i with _ | accounts
    · exact assoc_dget s key t k
    · exact (assoc_accumTiers same accounts _ _ t k).trans (assoc_dget s key t k)

theorem assoc_cidrLoop (env : Env) (same : SameAccount) (cidr : String)
    (entries : List (String × List String)) :
    ∀ (s : Store) (acc : Finset String) (t k : String),
      assoc (cidrLoop env same cidr s entries acc).2 t k = assoc s t k := by
  induction entries with
  | nil => intro s acc t k; rfl
  | cons e rest ih =>
    intro s acc t k
    rcases e with ⟨str_cidr, accounts⟩
    unfold cidrLoop
    rcases hq : env.parseNet cidr with _ | q
    · rfl
    · rcases hst : env.parseNet str_cidr with _ | st
      · rfl
      · dsimp only
        by_cases hc : netContains st q = true
        · rw [if_pos hc]
          rcases ha : accumTiers same s accounts acc with ⟨r, s1⟩
          have hpres : assoc s1 t k = assoc s t k := by
            have := assoc_accumTiers same accounts s acc t k
            rwa [ha] at this
          rcases r with e2 | acc2
          · exact hpres
          · exact (ih s1 _ t k).trans hpres
        · rw [if_neg hc]
          exact ih s acc t k

theorem assoc_inspect_who_cidr (env : Env) (s : Store) (cidr : String) (same : SameAccount)
    (t k : String) : assoc (inspect_who_cidr env s cidr same).2 t k = assoc s t k := by
  unfold inspect_who_cidr
  dsimp only
  rcases hl : cidrLoop env same cidr (dget s "cidr").2 (dget s "cidr").1 ∅ with ⟨r, s1⟩
  have hpres : assoc s1 t k = assoc s t k := by
    have h1 := assoc_cidrLoop env same cidr (dget s "cidr").1 (dget s "cidr").2 ∅ t k
    rw [hl] at h1
    exact h1.trans (assoc_dget s "cidr" t k)
  rcases r with e | v
  · exact hpres
  · dsimp only
    by_cases hv : v = ∅
    · rw [if_pos hv]
      exact hpres
    · rw [if_neg hv]
      exact hpres

theorem assoc_inspect_who_arn (env : Env) (s : Store) (arn_input : String)
    (same : SameAccount) (t k : String) :
    assoc (inspect_who_arn env s arn_input same).2.1 t k = assoc s t k := by
  unfold inspect_who_arn
  by_cases hw : arn_input = "*"
  · rw [if_pos hw]
  · rw [if_neg hw]
    dsimp only
    by_cases ht : (env.arnParse arn_input).tech = some "s3"
    · rw [if_pos ht]
      exact assoc_inspect_who_generic s "s3" (env.arnParse arn_input).arnName same t k
    · rw [if_neg ht]
      rcases h : inspect_who_account s (env.arnParse arn_input).account_number same with ⟨r, s1⟩
      have hpres : assoc s1 t k = assoc s t k := by
        have := assoc_inspect_who_account s (env.arnParse arn_input).account_number same t k
        rwa [h] at this
      rcases r with e | tr
      · exact hpres
      · exact hpres

theorem assoc_inspect_who (env : Env) (s : Store) (who : Who) (same : SameAccount)
    (t k : String) : assoc (inspect_who env s who same).2.1 t k = assoc s t k := by
  unfold inspect_who
  by_cases ha : who.category = "arn" ∨ who.category = "principal"
  · rw [if_pos ha]
    exact assoc_inspect_who_arn env s who.value same t k
  · rw [if_neg ha]
    by_cases hac : who.category = "account"
    · rw [if_pos hac]
      exact assoc_inspect_who_account s (some who.value) same t k
    · rw [if_neg hac]
      by_cases hui : who.category = "userid"
      · rw [if_pos hui]
        exact assoc_inspect_who_generic s "userid" _ same t k
      · rw [if_neg hui]
        by_cases hcd : who.category = "cidr"
        · rw [if_pos hcd]
          exact assoc_inspect_who_cidr env s who.value same t k
        · rw [if_neg hcd]
          by_cases hv : who.category = "vpc"
          · rw [if_pos hv]
            exact assoc_inspect_who_generic s "vpc" (some who.value) same t k
          · rw [if_neg hv]
            by_cases hve : who.category = "vpce"
            · rw [if_pos hve]
              exact assoc_inspect_who_generic s "vpce" (some who.value) same t k
            · rw [if_neg hve]

theorem find_tableInsert_same (tbl : Table) (k v : String) :
    Table.find (tableInsert tbl k v) k = some (((Table.find tbl k).getD []).insert v) := by
  induction tbl with
  | nil => simp [tableInsert, Table.find, List.insert]
  | cons p rest ih =>
    rcases p with ⟨k', vs⟩
    by_cases h : k' = k
    · simp [tableInsert, Table.find, h]
    · simp [tableInsert, Table.find, h, ih]

theorem tfind_cons (k0 : String) (vs : List String) (rest : Table) (key : String) :
    Table.find ((k0, vs) :: rest) key = if k0 = key then some vs else Table.find rest key := rfl

theorem tins_cons (k0 : String) (vs : List String) (rest : Table) (k v : String) :
    tableInsert ((k0, vs) :: rest) k v =
      if k0 = k then (k0, vs.insert v) :: rest else (k0, vs) :: tableInsert rest k v := rfl

theorem find_tableInsert_other (tbl : Table) (k v k' : String) (h : k' ≠ k) :
    Table.find (tableInsert tbl k v) k' = Table.find tbl k' := by
  induction tbl with
  | nil =>
    show Table.find [(k, [v])] k' = none
    rw [tfind_cons, if_neg (fun hh : k = k' => h hh.symm)]
    rfl
  | cons p rest ih =>
    rcases p with ⟨k0, vs⟩
    rw [tins_cons]
    by_cases h0 : k0 = k
    · rw [if_pos h0]
      have hne : ¬ k0 = k' := fun hh => h (hh ▸ h0)
      rw [tfind_cons, tfind_cons, if_neg hne, if_neg hne]
    · rw [if_neg h0, tfind_cons, tfind_cons]
      by_cases h1 : k0 = k'
      · rw [if_pos h1, if_pos h1]
      · rw [if_neg h1, if_neg h1]
        exact ih

/-- C5: `add` with an empty or absent key leaves the table unchanged; with a
non-empty key it inserts the account id into the set stored under that key
(creating the set if needed), leaves every other key untouched, and never
removes any existing association. -/
theorem claim_C5_add_spec (tbl : Table) (key : Option String) (v : String) :
    ((key = none ∨ key = some "") → add tbl key v = tbl) ∧
    (∀ k, key = some k → k ≠ "" →
      Table.find (add tbl key v) k = some (((Table.find tbl k).getD []).insert v)) ∧
    (∀ k, some k ≠ key →
      Table.find (add tbl key v) k = Table.find tbl k) ∧
    (∀ k a, a ∈ (Table.find tbl k).getD [] → a ∈ (Table.find (add tbl key v) k).getD []) := by
  refine ⟨?_, ?_, ?_, ?_⟩
  · rintro (h | h) <;> simp [h, add]
  · rintro k rfl hk
    simp only [add, if_neg hk]
    exact find_tableInsert_same tbl k v
  · intro k hk
    rcases key with _ | k0
    · rfl
    · simp only [add]
      by_cases h0 : k0 = ""
      · rw [if_pos h0]
      · rw [if_neg h0]
        exact find_tableInsert_other tbl k0 v k (fun hh => hk (by rw [hh]))
  · intro k a ha
    rcases key with _ | k0
    · exact ha
    · simp only [add]
      by_cases h0 : k0 = ""
      · rw [if_pos h0]; exact ha
      · rw [if_neg h0]
        by_cases hk : k = k0
        · subst hk
          rw [find_tableInsert_same tbl k v]
          simp only [Option.getD_some]
          exact List.mem_insert_iff.mpr (Or.inr ha)
        · rw [find_tableInsert_other tbl k0 v k hk]
          exact ha

/-- Closed instance of the C5 theorem at concrete inputs. -/
theorem claim_C5_add_spec_witness :
    add [("k", ["a"])] (some "") "b" = [("k", ["a"])] ∧
    Table.find (add [("k", ["a"])] (some "k2") "b") "k2" = some ["b"] ∧
    "a" ∈ (Table.find (add [("k", ["a"])] (some "k") "a2") "k").getD [] := by
  refine ⟨(claim_C5_add_spec [("k", ["a"])] (some "") "b").1 (Or.inr rfl), ?_, ?_⟩
  · have h := (claim_C5_add_spec [("k", ["a"])] (some "k2") "b").2.1 "k2" rfl (by decide)
    rw [h]
    decide
  · exact (claim_C5_add_spec [("k", ["a"])] (some "k") "a2").2.2.2 "k" "a" (by decide)

/-- C6: once any table of the knowledge base is non-empty, running the
builder again changes nothing: no insertion happens and every table keeps
its cardinality. -/
theorem claim_C6_prep_idempotent (repo : RepoM) (s : Store)
    (h : ∃ p ∈ s, p.2 ≠ ([] : Table)) :
    prep_for_audit repo s = s ∧
    (∀ n, ((Store.find (prep_for_audit repo s) n).getD []).length
        = ((Store.find s n).getD []).length) := by
  obtain ⟨p, hp, -⟩ := h
  have hs : s ≠ [] := by
    intro hnil
    rw [hnil] at hp
    exact absurd hp (List.not_mem_nil p)
  have : prep_for_audit repo s = s := by
    unfold prep_for_audit
    rw [if_neg hs]
  exact ⟨this, fun n => by rw [this]⟩

/-- Closed instance of the C6 theorem: a second build over a populated store
is the identity even though the repository still holds insertable rows. -/
theorem claim_C6_prep_idempotent_witness :
    prep_for_audit
      ⟨[⟨some "fresh-bucket", "999999999999"⟩], [], [], [], ["10.9.0.0/16"], [], [], ["999999999999"], []⟩
      [("cidr", [("10.0.0.0/8", ["222222222222"])])]
      = [("cidr", [("10.0.0.0/8", ["222222222222"])])] :=
  (claim_C6_prep_idempotent
      ⟨[⟨some "fresh-bucket", "999999999999"⟩], [], [], [], ["10.9.0.0/16"], [], [], ["999999999999"], []⟩
      [("cidr", [("10.0.0.0/8", ["222222222222"])])]
      ⟨("cidr", [("10.0.0.0/8", ["222222222222"])]), by simp, by simp⟩).1

theorem pyEqEmptyDict_iff (v : JVal) : pyEqEmptyDict v = true ↔ v = .obj [] := by
  cases v with
  | obj fields => cases fields <;> simp [pyEqEmptyDict]
  | _ => simp [pyEqEmptyDict]

/-- C10: the SNS empty-policy check emits exactly one severity-1 finding
tagged "SNS Topic Policy is empty" when the configuration maps `policy` to
an empty mapping or lacks the key, and emits nothing otherwise. -/
theorem claim_C10_sns_empty_policy (item : SnsItem) :
    ((item.config.find? (fun p => p.1 == "policy") = none ∨
      (∃ p, item.config.find? (fun p => p.1 == "policy") = some p ∧ p.2 = JVal.obj []))
        → check_snstopicpolicy_empty item = [⟨1, "SNS Topic Policy is empty", none⟩]) ∧
    (¬ (item.config.find? (fun p => p.1 == "policy") = none ∨
      (∃ p, item.config.find? (fun p => p.1 == "policy") = some p ∧ p.2 = JVal.obj []))
        → check_snstopicpolicy_empty item = []) := by
  rcases hL : item.config.find? (fun p => p.1 == "policy") with _ | p
  · have hc : check_snstopicpolicy_empty item = [⟨1, "SNS Topic Policy is empty", none⟩] := by
      unfold check_snstopicpolicy_empty configGet
      rw [hL]
      simp [pyEqEmptyDict]
    exact ⟨fun _ => hc, fun hn => absurd (Or.inl hL) hn⟩
  · by_cases hp : p.2 = JVal.obj []
    · have hc : check_snstopicpolicy_empty item = [⟨1, "SNS Topic Policy is empty", none⟩] := by
        unfold check_snstopicpolicy_empty configGet
        rw [hL]
        dsimp only
        rw [hp]
        simp [pyEqEmptyDict]
      exact ⟨fun _ => hc, fun hn => absurd (Or.inr ⟨p, hL, hp⟩) hn⟩
    · have hfalse : pyEqEmptyDict p.2 = false := by
        rcases h : pyEqEmptyDict p.2 with _ | _
        · rfl
        · exact absurd ((pyEqEmptyDict_iff p.2).mp h) hp
      have hc : check_snstopicpolicy_empty item = [] := by
        unfold check_snstopicpolicy_empty configGet
        rw [hL]
        dsimp only
        rw [hfalse]
        simp
      refine ⟨fun hcon => ?_, fun _ => hc⟩
      rcases hcon with h1 | ⟨q, hq, hq2⟩
      · rw [hL] at h1
        exact absurd h1 (by simp)
      · rw [hL] at hq
        injection hq with hq1
        exact absurd (by rw [hq1]; exact hq2) hp

/-- Closed instance of the C10 theorem: a present-but-empty policy mapping
yields the single severity-1 finding. -/
theorem claim_C10_sns_empty_policy_witness :
    check_snstopicpolicy_empty ⟨[("policy", JVal.obj [])]⟩
      = [⟨1, "SNS Topic Policy is empty", none⟩] :=
  (claim_C10_sns_empty_policy ⟨[("policy", JVal.obj [])]⟩).1
    (Or.inr ⟨("policy", JVal.obj []), rfl, rfl⟩)

/-- A concrete home account used by the closed instances. -/
def demoSame : SameAccount := ⟨"111111111111"⟩

/-- A concrete populated knowledge base used by the closed instances:
account 222222222222 is FRIENDLY, 333333333333 is THIRDPARTY. -/
def demoStore : Store :=
  [("s3", [("mybucket", ["222222222222"])]),
   ("vpc", []),
   ("vpce", []),
   ("cidr", [("10.0.0.0/8", ["222222222222"])]),
   ("userid", [("AIDAEXAMPLE", ["333333333333"])]),
   ("ACCOUNTS", [("FRIENDLY", ["222222222222"]), ("THIRDPARTY", ["333333333333"])])]

/-- A concrete ARN-parser collaborator mirroring policyuniverse on the few
strings the closed instances use. -/
def demoArn (v : String) : ARNRec :=
  if v = "ec2.amazonaws.com" then ⟨some "ec2", none, none, false, false, true⟩
  else if v = "arn:aws:iam::444444444444:root" then
    ⟨some "iam", some "444444444444", some "root", false, true, false⟩
  else if v = "arn:aws:iam::333333333333:root" then
    ⟨some "iam", some "333333333333", some "root", false, true, false⟩
  else if v = "arn:aws:iam::222222222222:role/myrole" then
    ⟨some "iam", some "222222222222", some "role/myrole", false, false, false⟩
  else ⟨none, none, none, true, false, false⟩

/-- A concrete network-parser collaborator mirroring `ipaddr` on the few
CIDR strings the closed instances use. -/
def demoNet (v : String) : Option IPNet :=
  if v = "10.0.0.0/8" then some ⟨4, 167772160, 8⟩
  else if v = "10.1.0.0/16" then some ⟨4, 167837696, 16⟩
  else if v = "192.168.0.0/16" then some ⟨4, 3232235520, 16⟩
  else none

/-- The concrete collaborator bundle for the closed instances. -/
def demoEnv : Env := ⟨demoArn, demoNet⟩

theorem demoStore_WF : WF demoStore :=
  ⟨⟨["222222222222"], rfl⟩, ⟨["333333333333"], rfl⟩, ⟨_, rfl⟩, ⟨_, rfl⟩, ⟨_, rfl⟩, ⟨_, rfl⟩,
    ⟨_, rfl⟩⟩

/-- C1: `inspect_who_account` resolves the sentinel id 000000000000 to SAME
on any store, resolves the home account's identifier to SAME on any store
(so before any registry lookup), and otherwise walks FRIENDLY, then
THIRDPARTY, then falls back to UNKNOWN. -/
theorem claim_C1_resolveAccount_precedence (s : Store) (a : Option String)
    (same : SameAccount) (fr tp : List String)
    (hfr : assoc s "ACCOUNTS" "FRIENDLY" = some fr)
    (htp : assoc s "ACCOUNTS" "THIRDPARTY" = some tp) :
    (∀ s' : Store, inspect_who_account s' (some "000000000000") same = (.ok "SAME", s')) ∧
    (∀ s' : Store, a = some same.identifier →
      inspect_who_account s' a same = (.ok "SAME", s')) ∧
    (a ≠ some "000000000000" → a ≠ some same.identifier → optMem a fr = true →
      inspect_who_account s a same = (.ok "FRIENDLY", s)) ∧
    (a ≠ some "000000000000" → a ≠ some same.identifier → optMem a fr = false →
      optMem a tp = true → inspect_who_account s a same = (.ok "THIRDPARTY", s)) ∧
    (a ≠ some "000000000000" → a ≠ some same.identifier → optMem a fr = false →
      optMem a tp = false → inspect_who_account s a same = (.ok "UNKNOWN", s)) := by
  refine ⟨?_, ?_, ?_, ?_, ?_⟩
  · intro s'
    unfold inspect_who_account
    rw [if_pos rfl]
  · intro s' hs
    unfold inspect_who_account
    by_cases h0 : a = some "000000000000"
    · rw [if_pos h0]
    · rw [if_neg h0, if_pos hs]
  · intro h0 hs hf
    rw [inspect_who_account_eq hfr htp]
    unfold accountTier
    rw [if_neg h0, if_neg hs, hfr]
    simp only [Option.getD_some]
    rw [if_pos hf]
  · intro h0 hs hf ht
    rw [inspect_who_account_eq hfr htp]
    unfold accountTier
    rw [if_neg h0, if_neg hs, hfr, htp]
    simp only [Option.getD_some]
    rw [if_neg (by rw [hf]; exact Bool.false_ne_true), if_pos ht]
  · intro h0 hs hf ht
    rw [inspect_who_account_eq hfr htp]
    unfold accountTier
    rw [if_neg h0, if_neg hs, hfr, htp]
    simp only [Option.getD_some]
    rw [if_neg (by rw [hf]; exact Bool.false_ne_true),
      if_neg (by rw [ht]; exact Bool.false_ne_true)]

/-- Closed instance of the C1 theorem: the registered FRIENDLY account
resolves to FRIENDLY on the demo store, and the home id to SAME. -/
theorem claim_C1_resolveAccount_precedence_witness :
    inspect_who_account demoStore (some "222222222222") demoSame
      = (.ok "FRIENDLY", demoStore) ∧
    inspect_who_account demoStore (some "111111111111") demoSame
      = (.ok "SAME", demoStore) := by
  have h := claim_C1_resolveAccount_precedence demoStore (some "222222222222") demoSame
    ["222222222222"] ["333333333333"] rfl rfl
  have h2 := claim_C1_resolveAccount_precedence demoStore (some "111111111111") demoSame
    ["222222222222"] ["333333333333"] rfl rfl
  exact ⟨h.2.2.1 (by decide) (by decide) (by decide), h2.2.1 demoStore rfl⟩

/-- The stored entries whose parsed network contains the parsed query `q`. -/
def containing (env : Env) (q : IPNet) (entries : List (String × List String)) :
    List (String × List String) :=
  entries.filter (fun p =>
    match env.parseNet p.1 with
    | some st => netContains st q
    | none => false)

/-- One accumulation step of the C2 statement: union in the resolved tiers
of one entry's owning accounts. -/
def tierUnionStep (s : Store) (same : SameAccount)
    (ac : Finset String) (p : String × List String) : Finset String :=
  ac ∪ (p.2.map (fun a => accountTier s (some a) same)).toFinset

theorem subset_foldl_tierUnion (s : Store) (same : SameAccount)
    (l : List (String × List String)) :
    ∀ acc : Finset String, acc ⊆ l.foldl (tierUnionStep s same) acc := by
  induction l with
  | nil => intro acc; exact Finset.Subset.refl acc
  | cons p rest ih =>
    intro acc
    exact (Finset.subset_union_left).trans (ih (tierUnionStep s same acc p))

theorem cidrLoop_char {env : Env} {s : Store} (same : SameAccount) {cidr : String}
    {q : IPNet} {fr tp : List String}
    (hfr : assoc s "ACCOUNTS" "FRIENDLY" = some fr)
    (htp : assoc s "ACCOUNTS" "THIRDPARTY" = some tp)
    (hq : env.parseNet cidr = some q) :
    ∀ (entries : List (String × List String)) (acc : Finset String),
      (∀ p ∈ entries, ∃ n, env.parseNet p.1 = some n) →
      cidrLoop env same cidr s entries acc =
        (.ok ((containing env q entries).foldl (tierUnionStep s same) acc), s) := by
  intro entries
  induction entries with
  | nil => intro acc _; rfl
  | cons e rest ih =>
    intro acc hkeys
    rcases e with ⟨sc, accs⟩
    obtain ⟨st, hst⟩ := hkeys ⟨sc, accs⟩ (List.mem_cons_self _ _)
    dsimp only at hst
    unfold cidrLoop
    rw [hq, hst]
    dsimp only
    by_cases hc : netContains st q = true
    · rw [if_pos hc, accumTiers_eq hfr htp]
      dsimp only
      rw [ih _ (fun p hp => hkeys p (List.mem_cons_of_mem _ hp))]
      have hfil : containing env q ((sc, accs) :: rest)
          = (sc, accs) :: containing env q rest := by
        unfold containing
        rw [List.filter_cons]
        dsimp only
        rw [hst]
        dsimp only
        rw [if_pos hc]
      rw [hfil, List.foldl_cons]
      have hstep : accs.foldl (fun ac a => insert (accountTier s (some a) same) ac) acc
          = tierUnionStep s same acc (sc, accs) := by
        rw [foldl_insert_eq_union]
        rfl
      rw [hstep]
    · rw [if_neg hc]
      rw [ih _ (fun p hp => hkeys p (List.mem_cons_of_mem _ hp))]
      have hfil : containing env q ((sc, accs) :: rest) = containing env q rest := by
        unfold containing
        rw [List.filter_cons]
        dsimp only
        rw [hst]
        dsimp only
        rw [if_neg hc]
      rw [hfil]

/-- C2: the cidr resolution returns, for a parseable query over a table of
parseable stored CIDRs with non-empty owner sets, the union of the resolved
tiers of the owners of every stored network containing the query, and the
singleton UNKNOWN when no stored network contains it. -/
theorem claim_C2_cidrLookup (env : Env) (s : Store) (same : SameAccount)
    (cidr : String) (q : IPNet) (fr tp : List String) (tC : Table)
    (hfr : assoc s "ACCOUNTS" "FRIENDLY" = some fr)
    (htp : assoc s "ACCOUNTS" "THIRDPARTY" = some tp)
    (htbl : Store.find s "cidr" = some tC)
    (hq : env.parseNet cidr = some q)
    (hkeys : ∀ p ∈ tC, ∃ n, env.parseNet p.1 = some n)
    (hvals : ∀ p ∈ tC, p.2 ≠ ([] : List String)) :
    (containing env q tC = [] →
      inspect_who_cidr env s cidr same = (.ok {"UNKNOWN"}, s)) ∧
    (containing env q tC ≠ [] →
      inspect_who_cidr env s cidr same =
        (.ok ((containing env q tC).foldl (tierUnionStep s same) ∅), s)) := by
  have hloop := cidrLoop_char same hfr htp hq tC ∅ hkeys
  have hbase : inspect_who_cidr env s cidr same =
      (if (containing env q tC).foldl (tierUnionStep s same) ∅ = ∅
        then (.ok {"UNKNOWN"}, s)
        else (.ok ((containing env q tC).foldl (tierUnionStep s same) ∅), s)) := by
    unfold inspect_who_cidr
    rw [dget_found htbl]
    dsimp only
    rw [hloop]
  constructor
  · intro hnil
    rw [hbase, hnil]
    simp
  · intro hne
    rcases hcont : containing env q tC with _ | ⟨p, rest⟩
    · exact absurd hcont hne
    · have hpmem : p ∈ containing env q tC := by rw [hcont]; exact List.mem_cons_self _ _
      have hptC : p ∈ tC := List.mem_of_mem_filter hpmem
      have hpne := hvals p hptC
      rcases hval : p.2 with _ | ⟨a0, as⟩
      · exact absurd hval hpne
      · have hmem : accountTier s (some a0) same ∈
            (containing env q tC).foldl (tierUnionStep s same) ∅ := by
          rw [hcont, List.foldl_cons]
          refine subset_foldl_tierUnion s same rest _ ?_
          unfold tierUnionStep
          rw [hval]
          simp
        have hfne : (containing env q tC).foldl (tierUnionStep s same) ∅ ≠ ∅ :=
          Finset.ne_empty_of_mem hmem
        rw [hbase, if_neg hfne, hcont]

/-- Closed instance of the C2 theorem: the demo store holds 10.0.0.0/8 owned
by the FRIENDLY account, and a query for the subnetwork 10.1.0.0/16
resolves to the FRIENDLY tier. -/
theorem claim_C2_cidrLookup_witness :
    inspect_who_cidr demoEnv demoStore "10.1.0.0/16" demoSame
      = (.ok {"FRIENDLY"}, demoStore) := by
  have hkeys : ∀ p ∈ [("10.0.0.0/8", ["222222222222"])],
      ∃ n, demoEnv.parseNet p.1 = some n := by
    intro p hp
    rcases List.mem_singleton.mp hp with rfl
    exact ⟨⟨4, 167772160, 8⟩, rfl⟩
  have hvals : ∀ p ∈ [("10.0.0.0/8", ["222222222222"])], p.2 ≠ ([] : List String) := by
    intro p hp
    rcases List.mem_singleton.mp hp with rfl
    decide
  have h := (claim_C2_cidrLookup demoEnv demoStore demoSame "10.1.0.0/16"
    ⟨4, 167837696, 16⟩ ["222222222222"] ["333333333333"]
    [("10.0.0.0/8", ["222222222222"])] rfl rfl rfl rfl hkeys hvals).2 (by decide)
  rw [h]
  rfl

theorem check_friendly_whos_cons (env : Env) (same : SameAccount) (s : Store)
    (who : Who) (rest : List Who) :
    check_friendly_whos env same s (who :: rest) =
      (match inspect_who env s who same with
       | (.ok wr, s1, fs) =>
         let fs2 := if wrMem "FRIENDLY" wr then fs ++ [friendlyFinding who] else fs
         let r := check_friendly_whos env same s1 rest
         (r.1, r.2.1, fs2 ++ r.2.2)
       | (.error e, s1, fs) => (.error e, s1, fs)) := rfl

theorem check_thirdparty_whos_cons (env : Env) (same : SameAccount) (s : Store)
    (who : Who) (rest : List Who) :
    check_thirdparty_whos env same s (who :: rest) =
      (match inspect_who env s who same with
       | (.ok wr, s1, fs) =>
         let fs2 := if wrMem "THIRDPARTY" wr then fs ++ [thirdpartyFinding who] else fs
         let r := check_thirdparty_whos env same s1 rest
         (r.1, r.2.1, fs2 ++ r.2.2)
       | (.error e, s1, fs) => (.error e, s1, fs)) := rfl

theorem check_unknown_whos_cons (env : Env) (same : SameAccount) (s : Store)
    (who : Who) (rest : List Who) :
    check_unknown_whos env same s (who :: rest) =
      (if who.value = "*" ∧ who.category = "principal" then
        check_unknown_whos env same s rest
      else if who.category = "principal" ∧ (env.arnParse who.value).service = true then
        check_unknown_whos env same s rest
      else
        match inspect_who env s who same with
        | (.ok wr, s1, fs) =>
          let fs2 := if wrMem "UNKNOWN" wr then fs ++ [unknownFinding who] else fs
          let r := check_unknown_whos env same s1 rest
          (r.1, r.2.1, fs2 ++ r.2.2)
        | (.error e, s1, fs) => (.error e, s1, fs)) := rfl

theorem check_root_whos_cons (env : Env) (same : SameAccount) (actions : List String)
    (s : Store) (who : Who) (rest : List Who) :
    check_root_whos env same actions s (who :: rest) =
      (if who.category = "arn" ∨ who.category = "principal" then
        if who.value = "*" then check_root_whos env same actions s rest
        else if (env.arnParse who.value).root = true then
          match inspect_who env s who same with
          | (.ok wr, s1, fs) =>
            match wrIntersects wr rootTiers with
            | .ok b =>
              let fs2 := if b then fs ++ [rootAccessFinding actions] else fs
              let r := check_root_whos env same actions s1 rest
              (r.1, r.2.1, fs2 ++ r.2.2)
            | .error e => (.error e, s1, fs)
          | (.error e, s1, fs) => (.error e, s1, fs)
        else check_root_whos env same actions s rest
      else check_root_whos env same actions s rest) := rfl

/-- C7: a non-wildcard reference whose ARN parse fails records exactly one
severity-3 finding tagged "Auditor could not parse ARN", still yields a
best-effort tier set, and the unknown check keeps processing the remaining
references of the policy. -/
theorem claim_C7_arn_parse_error (env : Env) (s : Store) (same : SameAccount)
    (arn_input : String) (hwf : WF s) (hne : arn_input ≠ "*")
    (herr : (env.arnParse arn_input).error = true) :
    (∃ ts, inspect_who_arn env s arn_input same
        = (.ok ts, s, [arnParseFinding arn_input])) ∧
    (arnParseFinding arn_input).severity = 3 ∧
    (arnParseFinding arn_input).tag = "Auditor could not parse ARN" ∧
    (∀ rest : List Who,
      ∃ fs1, check_unknown_whos env same s (⟨"arn", arn_input⟩ :: rest)
          = ((check_unknown_whos env same s rest).1,
             (check_unknown_whos env same s rest).2.1,
             fs1 ++ (check_unknown_whos env same s rest).2.2)
        ∧ arnParseFinding arn_input ∈ fs1) := by
  obtain ⟨⟨fr, hfr⟩, ⟨tp, htp⟩, ⟨t3, h3⟩, -, -, -, -⟩ := hwf
  obtain ⟨ts, hts⟩ := inspect_who_arn_wf hfr htp h3 env arn_input same
  rw [if_neg hne, if_pos herr] at hts
  have hiw : inspect_who env s ⟨"arn", arn_input⟩ same
      = (.ok (.tiers ts), s, [arnParseFinding arn_input]) := by
    unfold inspect_who
    rw [if_pos (Or.inl rfl)]
    dsimp only
    rw [hts]
    rfl
  refine ⟨⟨ts, hts⟩, rfl, rfl, ?_⟩
  intro rest
  have hg1 : ¬((⟨"arn", arn_input⟩ : Who).value = "*" ∧
      (⟨"arn", arn_input⟩ : Who).category = "principal") := by
    intro hc
    simp at hc
  have hg2 : ¬((⟨"arn", arn_input⟩ : Who).category = "principal" ∧
      (env.arnParse (⟨"arn", arn_input⟩ : Who).value).service = true) := by
    intro hc
    simp at hc
  rw [check_unknown_whos_cons, if_neg hg1, if_neg hg2, hiw]
  dsimp only
  by_cases hu : wrMem "UNKNOWN" (.tiers ts) = true
  · rw [if_pos hu]
    exact ⟨_, rfl, List.mem_append_left _ (List.mem_singleton_self _)⟩
  · rw [if_neg hu]
    exact ⟨_, rfl, List.mem_singleton_self _⟩

/-- Closed instance of the C7 theorem: an unparsable ARN over the demo store
yields the single severity-3 parse finding and an UNKNOWN best-effort tier. -/
theorem claim_C7_arn_parse_error_witness :
    inspect_who_arn demoEnv demoStore "arn:aws:::::garbage" demoSame
      = (.ok {"UNKNOWN"}, demoStore, [arnParseFinding "arn:aws:::::garbage"]) ∧
    (arnParseFinding "arn:aws:::::garbage").severity = 3 := by
  have h := claim_C7_arn_parse_error demoEnv demoStore demoSame
    "arn:aws:::::garbage" demoStore_WF (by decide) rfl
  exact ⟨rfl, h.2.1⟩

/-- C4 counterexample: for an unrecognized category `inspect_who` yields the
bare Python string 'ERROR', which is a different value from the set {ERROR}
the claim names. -/
theorem claim_C4_counterexample :
    inspect_who demoEnv demoStore ⟨"bogus", "x"⟩ demoSame
      = (.ok (.str "ERROR"), demoStore, []) ∧
    WhoResult.str "ERROR" ≠ WhoResult.tiers {"ERROR"} :=
  ⟨rfl, fun h => WhoResult.noConfusion h⟩

/-- C4 amended: an unrecognized category resolves to the bare string 'ERROR'
(not the set {ERROR}); under the membership tests the checks apply, the
string signals ERROR and no trust tier, so the friendly, third-party,
unknown and root checks emit no finding for such a reference (in particular
it is never coerced to UNKNOWN) and continue with the remaining references. -/
theorem claim_C4_unrecognized_category (env : Env) (s : Store) (same : SameAccount)
    (who : Who)
    (h : who.category ∉
      (["arn", "principal", "account", "userid", "cidr", "vpc", "vpce"] : List String)) :
    inspect_who env s who same = (.ok (.str "ERROR"), s, []) ∧
    wrMem "ERROR" (.str "ERROR") = true ∧
    wrMem "FRIENDLY" (.str "ERROR") = false ∧
    wrMem "THIRDPARTY" (.str "ERROR") = false ∧
    wrMem "UNKNOWN" (.str "ERROR") = false ∧
    (∀ rest, check_friendly_whos env same s (who :: rest)
      = check_friendly_whos env same s rest) ∧
    (∀ rest, check_thirdparty_whos env same s (who :: rest)
      = check_thirdparty_whos env same s rest) ∧
    (∀ rest, check_unknown_whos env same s (who :: rest)
      = check_unknown_whos env same s rest) ∧
    (∀ acts rest, check_root_whos env same acts s (who :: rest)
      = check_root_whos env same acts s rest) := by
  simp only [List.mem_cons, List.not_mem_nil, or_false, not_or] at h
  obtain ⟨h1, h2, h3, h4, h5, h6, h7⟩ := h
  have hiw : inspect_who env s who same = (.ok (.str "ERROR"), s, []) := by
    unfold inspect_who
    rw [if_neg (by rintro (hx | hx) <;> [exact h1 hx; exact h2 hx]),
      if_neg h3, if_neg h4, if_neg h5, if_neg h6, if_neg h7]
  refine ⟨hiw, by decide, by decide, by decide, by decide, ?_, ?_, ?_, ?_⟩
  · intro rest
    rw [check_friendly_whos_cons, hiw]
    rfl
  · intro rest
    rw [check_thirdparty_whos_cons, hiw]
    rfl
  · intro rest
    rw [check_unknown_whos_cons, if_neg (fun hc => h2 hc.2), if_neg (fun hc => h2 hc.1), hiw]
    rfl
  · intro acts rest
    rw [check_root_whos_cons,
      if_neg (by rintro (hx | hx) <;> [exact h1 hx; exact h2 hx])]

/-- Closed instance of the amended C4 theorem at another unrecognized
category. -/
theorem claim_C4_unrecognized_category_witness :
    inspect_who demoEnv demoStore ⟨"service", "foo"⟩ demoSame
      = (.ok (.str "ERROR"), demoStore, []) ∧
    check_friendly_whos demoEnv demoSame demoStore [⟨"service", "foo"⟩]
      = check_friendly_whos demoEnv demoSame demoStore [] := by
  have h := claim_C4_unrecognized_category demoEnv demoStore demoSame ⟨"service", "foo"⟩
    (by decide)
  exact ⟨h.1, h.2.2.2.2.2.1 []⟩

/-- C9 counterexample: resolving a vpc reference against a store lacking the
vpc table creates that table, so the knowledge base is not identical before
and after the call. -/
theorem claim_C9_counterexample :
    (inspect_who demoEnv [] ⟨"vpc", "vpc-12345678"⟩ demoSame).2.1 = [("vpc", [])] ∧
    ([("vpc", [])] : Store) ≠ [] :=
  ⟨rfl, fun h => List.noConfusion h⟩

/-- C9 amended: resolution never creates, alters or drops any key-to-owners
association: every (table, key) pair reads the same account set before and
after any resolver call; the only store change defaultdict lookups can make
is materialising an absent table as a new empty table. -/
theorem claim_C9_resolution_frame (env : Env) (s : Store) (same : SameAccount) :
    (∀ who t k, assoc (inspect_who env s who same).2.1 t k = assoc s t k) ∧
    (∀ a t k, assoc (inspect_who_account s a same).2 t k = assoc s t k) ∧
    (∀ key iv t k, assoc (inspect_who_generic s key iv same).2 t k = assoc s t k) ∧
    (∀ c t k, assoc (inspect_who_cidr env s c same).2 t k = assoc s t k) :=
  ⟨fun who t k => assoc_inspect_who env s who same t k,
   fun a t k => assoc_inspect_who_account s a same t k,
   fun key iv t k => assoc_inspect_who_generic s key iv same t k,
   fun c t k => assoc_inspect_who_cidr env s c same t k⟩

/-- C3 counterexample: a category-`arn` reference whose value is an AWS
service principal (ARN service field set) and resolves to UNKNOWN still
receives a severity-10 unknown finding: the service skip in the code guards
only category-`principal` references. -/
theorem claim_C3_counterexample :
    (demoEnv.arnParse "ec2.amazonaws.com").service = true ∧
    (check_unknown_policy demoEnv demoSame demoStore
        ⟨false, [⟨"arn", "ec2.amazonaws.com"⟩], []⟩).2.2
      = [unknownFinding ⟨"arn", "ec2.amazonaws.com"⟩] ∧
    (unknownFinding ⟨"arn", "ec2.amazonaws.com"⟩).severity = 10 :=
  ⟨rfl, rfl, rfl⟩

/-- The emission condition the unknown check actually implements for one
reference (the corrected C3 condition): not the bare wildcard principal, not
a category-`principal` reference with the ARN service field set, and UNKNOWN
a member of the resolved result. -/
def unknownEmit (env : Env) (s : Store) (same : SameAccount) (who : Who) : Bool :=
  !(who.value == "*" && who.category == "principal") &&
  !(who.category == "principal" && (env.arnParse who.value).service) &&
  (match (inspect_who env s who same).1 with
   | .ok wr => wrMem "UNKNOWN" wr
   | .error _ => false)

theorem check_unknown_whos_char (env : Env) (same : SameAccount) {s : Store} (hwf : WF s) :
    ∀ whos : List Who,
      (∀ who ∈ whos, ∃ wr, (inspect_who env s who same).1 = .ok wr) →
      ∃ FS, check_unknown_whos env same s whos = (.ok (), s, FS) ∧
        FS.filter (fun f => f.tag == "Unknown Cross Account Access")
          = (whos.filter (unknownEmit env s same)).map unknownFinding := by
  intro whos
  induction whos with
  | nil => intro _; exact ⟨[], rfl, rfl⟩
  | cons who rest ih =>
    intro hok
    obtain ⟨FS, hFS, hfil⟩ := ih (fun w hw => hok w (List.mem_cons_of_mem _ hw))
    by_cases hg1 : who.value = "*" ∧ who.category = "principal"
    · have hemit : unknownEmit env s same who = false := by
        simp [unknownEmit, hg1.1, hg1.2]
      refine ⟨FS, ?_, ?_⟩
      · rw [check_unknown_whos_cons, if_pos hg1, hFS]
      · rw [List.filter_cons, if_neg (by rw [hemit]; exact Bool.false_ne_true)]
        exact hfil
    · by_cases hg2 : who.category = "principal" ∧ (env.arnParse who.value).service = true
      · have hemit : unknownEmit env s same who = false := by
          simp [unknownEmit, hg2.1, hg2.2]
        refine ⟨FS, ?_, ?_⟩
        · rw [check_unknown_whos_cons, if_neg hg1, if_pos hg2, hFS]
        · rw [List.filter_cons, if_neg (by rw [hemit]; exact Bool.false_ne_true)]
          exact hfil
      · obtain ⟨res, fs, heq, hfs, -⟩ := inspect_who_wf env hwf who same
        obtain ⟨wr, hwr⟩ := hok who (List.mem_cons_self _ _)
        rw [heq] at hwr
        have hres : res = .ok wr := hwr
        subst hres
        have hb1 : (who.value == "*" && who.category == "principal") = false := by
          rcases hx : (who.value == "*" && who.category == "principal") with _ | _
          · rfl
          · rw [Bool.and_eq_true, beq_iff_eq, beq_iff_eq] at hx
            exact absurd hx hg1
        have hb2 : (who.category == "principal" && (env.arnParse who.value).service) = false := by
          rcases hx : (who.category == "principal" && (env.arnParse who.value).service) with _ | _
          · rfl
          · rw [Bool.and_eq_true, beq_iff_eq] at hx
            exact absurd hx hg2
        have hemit : unknownEmit env s same who = wrMem "UNKNOWN" wr := by
          unfold unknownEmit
          rw [hb1, hb2, heq]
          simp
        have hfsfil : fs.filter (fun f => f.tag == "Unknown Cross Account Access") = [] := by
          rcases hfs with hfs | hfs <;> rw [hfs] <;> rfl
        rw [check_unknown_whos_cons, if_neg hg1, if_neg hg2, heq]
        dsimp only
        rw [hFS]
        dsimp only
        refine ⟨_, rfl, ?_⟩
        rw [List.filter_append, hfil, List.filter_cons, hemit]
        by_cases hu : wrMem "UNKNOWN" wr = true
        · rw [if_pos hu, if_pos hu, List.filter_append, hfsfil]
          rfl
        · rw [if_neg hu, if_neg hu, hfsfil]
          rfl

theorem check_unknown_cross_account_cons (env : Env) (same : SameAccount) (s : Store)
    (pol : PolicyM) (rest : List PolicyM) :
    check_unknown_cross_account env same s (pol :: rest) =
      (match check_unknown_policy env same s pol with
       | (.ok _, s1, fs) =>
         let r := check_unknown_cross_account env same s1 rest
         (r.1, r.2.1, fs ++ r.2.2)
       | (.error e, s1, fs) => (.error e, s1, fs)) := rfl

/-- C3 amended: over every policy of the item the unknown check emits one
severity-10 unknown finding per reference exactly when the policy is not
internet-accessible, the reference is not the bare wildcard principal, the
reference is not a category-`principal` reference whose ARN service field is
set (category-`arn` references are not service-filtered), and UNKNOWN is in
the resolved tier set. -/
theorem claim_C3_unknown_check (env : Env) (s : Store) (same : SameAccount) (hwf : WF s)
    (pols : List PolicyM)
    (hok : ∀ pol ∈ pols, ∀ who ∈ pol.whosAllowed,
      ∃ wr, (inspect_who env s who same).1 = .ok wr) :
    ∃ FS, check_unknown_cross_account env same s pols = (.ok (), s, FS) ∧
      FS.filter (fun f => f.tag == "Unknown Cross Account Access")
        = (pols.map (fun pol =>
            if pol.internetAccessible then []
            else (pol.whosAllowed.filter (unknownEmit env s same)).map unknownFinding)).flatten ∧
      (∀ who, (unknownFinding who).severity = 10) := by
  induction pols with
  | nil => exact ⟨[], rfl, rfl, fun _ => rfl⟩
  | cons pol rest ih =>
    obtain ⟨FS, hFS, hfil, -⟩ := ih (fun p hp w hw => hok p (List.mem_cons_of_mem _ hp) w hw)
    by_cases hia : pol.internetAccessible = true
    · have hpol : check_unknown_policy env same s pol = (.ok (), s, []) := by
        unfold check_unknown_policy
        rw [if_pos hia]
      refine ⟨FS, ?_, ?_, fun _ => rfl⟩
      · rw [check_unknown_cross_account_cons, hpol]
        dsimp only
        rw [hFS]
        rfl
      · rw [List.map_cons, if_pos hia]
        exact hfil.trans rfl
    · obtain ⟨FS1, hFS1, hfil1⟩ := check_unknown_whos_char env same hwf pol.whosAllowed
        (hok pol (List.mem_cons_self _ _))
      have hpol : check_unknown_policy env same s pol = (.ok (), s, FS1) := by
        unfold check_unknown_policy
        rw [if_neg hia, hFS1]
      refine ⟨FS1 ++ FS, ?_, ?_, fun _ => rfl⟩
      · rw [check_unknown_cross_account_cons, hpol]
        dsimp only
        rw [hFS]
      · rw [List.filter_append, hfil, hfil1, List.map_cons, if_neg hia]
        rfl

/-- Closed instance of the amended C3 theorem: an account reference that is
in neither registry and differs from the home account draws the unknown
finding on a policy that is not internet-accessible. -/
theorem claim_C3_unknown_check_witness :
    (check_unknown_cross_account demoEnv demoSame demoStore
        [⟨false, [⟨"account", "999999999999"⟩], []⟩]).2.2.filter
        (fun f => f.tag == "Unknown Cross Account Access")
      = [unknownFinding ⟨"account", "999999999999"⟩] := by
  obtain ⟨FS, hFS, hfil, -⟩ := claim_C3_unknown_check demoEnv demoStore demoSame demoStore_WF
    [⟨false, [⟨"account", "999999999999"⟩], []⟩]
    (by
      intro pol hpol who hwho
      rcases List.mem_singleton.mp hpol with rfl
      rcases List.mem_singleton.mp hwho with rfl
      exact ⟨.tiers {"UNKNOWN"}, rfl⟩)
  rw [hFS]
  exact hfil.trans rfl

/-- The emission condition of the root check for one reference (the C8
condition, minus the statement-level Allow gate): category `arn` or
`principal`, not the bare wildcard, ARN root flag set, and the resolved tier
set meeting {FRIENDLY, THIRDPARTY, UNKNOWN}. -/
def rootEmit (env : Env) (s : Store) (same : SameAccount) (who : Who) : Bool :=
  (who.category == "arn" || who.category == "principal") &&
  !(who.value == "*") &&
  (env.arnParse who.value).root &&
  (match (inspect_who env s who same).1 with
   | .ok (.tiers ts) => if ts ∩ rootTiers = ∅ then false else true
   | _ => false)

theorem check_root_whos_char (env : Env) (same : SameAccount) {s : Store} (hwf : WF s)
    (actions : List String) :
    ∀ whos : List Who,
      ∃ FS, check_root_whos env same actions s whos = (.ok (), s, FS) ∧
        FS.filter (fun f => f.tag == "Root Cross Account Access")
          = (whos.filter (rootEmit env s same)).map (fun _ => rootAccessFinding actions) := by
  intro whos
  induction whos with
  | nil => exact ⟨[], rfl, rfl⟩
  | cons who rest ih =>
    obtain ⟨FS, hFS, hfil⟩ := ih
    by_cases hcat : who.category = "arn" ∨ who.category = "principal"
    · have hbcat : (who.category == "arn" || who.category == "principal") = true := by
        rcases hcat with hc | hc <;> simp [hc]
      by_cases hw : who.value = "*"
      · have hemit : rootEmit env s same who = false := by
          simp [rootEmit, hw]
        refine ⟨FS, ?_, ?_⟩
        · rw [check_root_whos_cons, if_pos hcat, if_pos hw, hFS]
        · rw [List.filter_cons, if_neg (by rw [hemit]; exact Bool.false_ne_true)]
          exact hfil
      · by_cases hr : (env.arnParse who.value).root = true
        · obtain ⟨res, fs, heq, hfs, htiers⟩ := inspect_who_wf env hwf who same
          obtain ⟨ts, hts⟩ := htiers hcat
          subst hts
          have hfsfil : fs.filter (fun f => f.tag == "Root Cross Account Access") = [] := by
            rcases hfs with hfs | hfs <;> rw [hfs] <;> rfl
          have hemit : rootEmit env s same who
              = (if ts ∩ rootTiers = ∅ then false else true) := by
            unfold rootEmit
            rw [hbcat, hr, heq]
            simp [hw]
          rw [check_root_whos_cons, if_pos hcat, if_neg hw, if_pos hr, heq]
          dsimp only [wrIntersects]
          rw [hFS]
          dsimp only
          refine ⟨_, rfl, ?_⟩
          rw [List.filter_append, hfil, List.filter_cons, hemit]
          by_cases hb : (if ts ∩ rootTiers = ∅ then false else true) = true
          · rw [if_pos hb, if_pos hb, List.filter_append, hfsfil]
            rfl
          · rw [if_neg hb, if_neg hb, hfsfil]
            rfl
        · have hemit : rootEmit env s same who = false := by
            have hr' : (env.arnParse who.value).root = false := by
              rcases hx : (env.arnParse who.value).root with _ | _
              · rfl
              · exact absurd hx hr
            simp [rootEmit, hr']
          refine ⟨FS, ?_, ?_⟩
          · rw [check_root_whos_cons, if_pos hcat, if_neg hw, if_neg hr, hFS]
          · rw [List.filter_cons, if_neg (by rw [hemit]; exact Bool.false_ne_true)]
            exact hfil
    · have hemit : rootEmit env s same who = false := by
        have h1 : ¬ who.category = "arn" := fun hx => hcat (Or.inl hx)
        have h2 : ¬ who.category = "principal" := fun hx => hcat (Or.inr hx)
        simp [rootEmit, h1, h2]
      refine ⟨FS, ?_, ?_⟩
      · rw [check_root_whos_cons, if_neg hcat, hFS]
      · rw [List.filter_cons, if_neg (by rw [hemit]; exact Bool.false_ne_true)]
        exact hfil

/-- C8: for an effect-Allow statement the root check emits the modelled
root-access finding (which lists the statement's granted actions) exactly
for the references satisfying `rootEmit`: category arn or principal, value
not the bare wildcard, parsed ARN root flag set, and resolved tier set
meeting {FRIENDLY, THIRDPARTY, UNKNOWN}; statements with any other effect
emit nothing. -/
theorem claim_C8_root_check (env : Env) (s : Store) (same : SameAccount) (hwf : WF s)
    (st : StatementM) :
    ∃ FS, check_root_statement env same s st = (.ok (), s, FS) ∧
      FS.filter (fun f => f.tag == "Root Cross Account Access")
        = (if st.effect = "Allow"
            then (st.whos.filter (rootEmit env s same)).map
              (fun _ => rootAccessFinding st.actions)
            else []) ∧
      (rootAccessFinding st.actions).notes = some (String.intercalate "," st.actions) := by
  by_cases he : st.effect = "Allow"
  · obtain ⟨FS, hFS, hfil⟩ := check_root_whos_char env same hwf st.actions st.whos
    refine ⟨FS, ?_, ?_, rfl⟩
    · unfold check_root_statement
      rw [if_pos he, hFS]
    · rw [if_pos he]
      exact hfil
  · refine ⟨[], ?_, ?_, rfl⟩
    · unfold check_root_statement
      rw [if_neg he]
    · rw [if_neg he]
      rfl

/-- Closed instance of the C8 theorem: a root ARN of the registered
THIRDPARTY account under an Allow statement draws the root-access finding
listing the statement's actions. -/
theorem claim_C8_root_check_witness :
    (check_root_statement demoEnv demoSame demoStore
        ⟨"Allow", ["sns:Publish"], [⟨"principal", "arn:aws:iam::333333333333:root"⟩]⟩).2.2.filter
        (fun f => f.tag == "Root Cross Account Access")
      = [rootAccessFinding ["sns:Publish"]] := by
  obtain ⟨FS, hFS, hfil, -⟩ := claim_C8_root_check demoEnv demoStore demoSame demoStore_WF
    ⟨"Allow", ["sns:Publish"], [⟨"principal", "arn:aws:iam::333333333333:root"⟩]⟩
  rw [hFS]
  exact hfil.trans rfl

end SecMonkey
